import Mathlib

/-!
Shallow embedding of the delta-neutral funding-arbitrage backtest engine
(`backtester.py`, with `PositionSignal` from `funding_monitor.py` and
`HistoricalDataPoint` from `data_fetcher.py`).

Python floats are modelled as rationals (`ℚ`); Python dicts are modelled as
insertion-ordered association lists (`List (key × value)`) with the three
operations the source uses: lookup (`alookup`), update-or-append
(`ainsert`, matching `d[k] = v`), and deletion (`aerase`, matching
`del d[k]`).  The Python class `Backtester` mixes immutable configuration
with mutable state; here the configuration fields form `BacktestConfig`
and the mutable fields (`capital`, `positions`, `trades`, `equity_curve`)
form `BTState`, threaded explicitly.

The Sharpe-ratio field of `BacktestResult` is omitted: its computation
takes a floating-point square root, which has no exact rational
counterpart, and no property below concerns it.
-/

namespace DeltaNeutral

/-- `PositionSignal` enum from funding_monitor.py. -/
inductive PositionSignal where
  | LONG_SPOT_SHORT_PERP
  | SHORT_SPOT_LONG_PERP
  | NO_SIGNAL
deriving DecidableEq, Repr

/-- `HistoricalDataPoint` dataclass from data_fetcher.py. -/
structure HistoricalDataPoint where
  timestamp : Int
  asset : String
  funding_rate : ℚ
  mark_price : ℚ
  open_interest : Option ℚ := none
deriving DecidableEq, Repr

/-- `BacktestPosition` dataclass from backtester.py. -/
structure BacktestPosition where
  asset : String
  entry_time : Int
  entry_price : ℚ
  size : ℚ
  signal : PositionSignal
  spot_size : ℚ
  perp_size : ℚ
  exit_time : Option Int := none
  exit_price : Option ℚ := none
  funding_collected : ℚ := 0
  pnl : ℚ := 0
deriving DecidableEq, Repr

/-- `BacktestTrade` dataclass from backtester.py (`action` is the Python
string 'open' or 'close'). -/
structure BacktestTrade where
  timestamp : Int
  asset : String
  action : String
  price : ℚ
  size : ℚ
  signal : Option PositionSignal := none
deriving DecidableEq, Repr

/-- `BacktestResult` dataclass from backtester.py (Sharpe field omitted,
see module comment). -/
structure BacktestResult where
  start_time : Int
  end_time : Int
  initial_capital : ℚ
  final_capital : ℚ
  total_return : ℚ
  total_return_pct : ℚ
  funding_collected : ℚ
  num_trades : Nat
  num_winning_trades : Nat
  num_losing_trades : Nat
  win_rate : ℚ
  max_drawdown : ℚ
  positions : List BacktestPosition
  trades : List BacktestTrade
  equity_curve : List (Int × ℚ)
deriving DecidableEq, Repr

/-- Configuration fields of the Python `Backtester` class (immutable per
run).  `leverage` and `rebalance_threshold` are carried but, as in the
source, never used by the backtest arithmetic. -/
structure BacktestConfig where
  initial_capital : ℚ
  funding_threshold : ℚ
  max_position_size_usd : ℚ
  leverage : ℚ
  rebalance_threshold : ℚ
  trading_fee : ℚ
deriving DecidableEq, Repr

/-- The mutable fields of the Python `Backtester` class. -/
structure BTState where
  capital : ℚ
  positions : List (String × BacktestPosition)
  trades : List BacktestTrade
  equity_curve : List (Int × ℚ)
deriving DecidableEq, Repr

/-- Fresh engine state, as set up in `Backtester.__init__`. -/
def init_state (cfg : BacktestConfig) : BTState :=
  { capital := cfg.initial_capital, positions := [], trades := [], equity_curve := [] }

/-- Dict lookup `d.get(k)` / `k in d`. -/
def alookup {α : Type} : List (String × α) → String → Option α
  | [], _ => none
  | (k, v) :: rest, key => if k = key then some v else alookup rest key

/-- Dict assignment `d[k] = v`: replaces the value in place when the key is
present (keeping its position, as Python dicts do), otherwise appends. -/
def ainsert {α : Type} : List (String × α) → String → α → List (String × α)
  | [], key, v => [(key, v)]
  | (k, w) :: rest, key, v =>
      if k = key then (k, v) :: rest else (k, w) :: ainsert rest key v

/-- Dict deletion `del d[k]` (removes the first occurrence of the key). -/
def aerase {α : Type} : List (String × α) → String → List (String × α)
  | [], _ => []
  | (k, w) :: rest, key => if k = key then rest else (k, w) :: aerase rest key

/-- Integer lookup variant, for the outer `data_by_time` dict keyed by
bucket timestamps. -/
def ilookup {α : Type} : List (Int × α) → Int → Option α
  | [], _ => none
  | (k, v) :: rest, key => if k = key then some v else ilookup rest key

/-- Integer-keyed dict assignment, same semantics as `ainsert`. -/
def iinsert {α : Type} : List (Int × α) → Int → α → List (Int × α)
  | [], key, v => [(key, v)]
  | (k, w) :: rest, key, v =>
      if k = key then (k, v) :: rest else (k, w) :: iinsert rest key v

/-- Python `int()` applied to a rational: truncation toward zero.  The
denominator is positive, so for a nonnegative numerator this is plain
Euclidean division and for a negative numerator it is the negated
division of the absolute value — exactly C-style truncating division. -/
def pyTrunc (q : ℚ) : Int :=
  if q.num < 0 then -((-q.num) / (q.den : Int)) else q.num / (q.den : Int)

/-- `Backtester._get_signal` (backtester.py lines 191-198). -/
def get_signal (cfg : BacktestConfig) (funding_rate : ℚ) : PositionSignal :=
  if funding_rate > cfg.funding_threshold then PositionSignal.LONG_SPOT_SHORT_PERP
  else if funding_rate < -cfg.funding_threshold then PositionSignal.SHORT_SPOT_LONG_PERP
  else PositionSignal.NO_SIGNAL

/-- `Backtester._can_open_position` (lines 200-204):
`len(positions) < max(1, int(capital * 0.8 / max_position_size_usd))`. -/
def can_open_position (cfg : BacktestConfig) (s : BTState) : Bool :=
  let max_positions := pyTrunc (s.capital * (4 / 5) / cfg.max_position_size_usd)
  (s.positions.length : Int) < max 1 max_positions

/-- `Backtester._open_position` (lines 206-246). -/
def open_position (cfg : BacktestConfig) (asset : String) (timestamp : Int)
    (dp : HistoricalDataPoint) (sig : PositionSignal) (s : BTState) : BTState :=
  let size_usd := min cfg.max_position_size_usd (s.capital * (4 / 5))
  let size := size_usd / dp.mark_price
  let fees := size_usd * cfg.trading_fee * 2
  let capital' := s.capital - fees
  let spot_size := if sig = PositionSignal.LONG_SPOT_SHORT_PERP then size else -size
  let perp_size := if sig = PositionSignal.LONG_SPOT_SHORT_PERP then -size else size
  let position : BacktestPosition :=
    { asset := asset, entry_time := timestamp, entry_price := dp.mark_price,
      size := size, signal := sig, spot_size := spot_size, perp_size := perp_size }
  let trade : BacktestTrade :=
    { timestamp := timestamp, asset := asset, action := "open",
      price := dp.mark_price, size := size, signal := some sig }
  { s with capital := capital',
           positions := ainsert s.positions asset position,
           trades := s.trades ++ [trade] }

/-- `Backtester._calculate_funding_pnl` (lines 280-297). -/
def calculate_funding_pnl (position : BacktestPosition) (funding_rate : ℚ) : ℚ :=
  let position_value := |position.perp_size| * position.entry_price
  if position.signal = PositionSignal.LONG_SPOT_SHORT_PERP then
    if funding_rate > 0 then position_value * funding_rate else 0
  else
    if funding_rate > 0 then -position_value * funding_rate
    else position_value * |funding_rate|

/-- The closed position record as mutated by `_close_position` lines
307-317: pnl, exit_time and exit_price set (the source then drops the
record from the open-positions dict without retaining it anywhere). -/
def closed_record (cfg : BacktestConfig) (position : BacktestPosition)
    (timestamp : Int) (price : ℚ) : BacktestPosition :=
  let price_change := price - position.entry_price
  let price_pnl := position.spot_size * price_change + position.perp_size * price_change
  let size_usd := |position.size| * price
  let fees := size_usd * cfg.trading_fee * 2
  { position with
      pnl := position.funding_collected + price_pnl - fees,
      exit_time := some timestamp,
      exit_price := some price }

/-- `Backtester._close_position` (lines 299-335): no-op when the asset has
no open position; otherwise realizes total pnl into capital, records a
'close' trade and deletes the position from the open dict. -/
def close_position (cfg : BacktestConfig) (asset : String) (timestamp : Int)
    (price : ℚ) (s : BTState) : BTState :=
  match alookup s.positions asset with
  | none => s
  | some position =>
      let closedPos := closed_record cfg position timestamp price
      let trade : BacktestTrade :=
        { timestamp := timestamp, asset := asset, action := "close",
          price := price, size := position.size }
      { s with capital := s.capital + closedPos.pnl,
               trades := s.trades ++ [trade],
               positions := aerase s.positions asset }

/-- The funding-accrual step of `Backtester._update_position` (lines
261-266): funding pnl is added both to the position's
`funding_collected` and to capital. -/
def accrue_funding (asset : String) (dp : HistoricalDataPoint) (s : BTState) : BTState :=
  match alookup s.positions asset with
  | none => s
  | some position =>
      let funding_pnl := calculate_funding_pnl position dp.funding_rate
      { s with capital := s.capital + funding_pnl,
               positions := ainsert s.positions asset
                 { position with funding_collected := position.funding_collected + funding_pnl } }

/-- `Backtester._update_position` (lines 254-278): accrue funding, then
close if the re-classified signal differs from the held one or is
NO_SIGNAL. -/
def update_position (cfg : BacktestConfig) (asset : String) (timestamp : Int)
    (dp : HistoricalDataPoint) (s : BTState) : BTState :=
  match alookup s.positions asset with
  | none => s
  | some position =>
      let s1 := accrue_funding asset dp s
      let new_signal := get_signal cfg dp.funding_rate
      if new_signal ≠ position.signal ∨ new_signal = PositionSignal.NO_SIGNAL then
        close_position cfg asset timestamp dp.mark_price s1
      else s1

/-- `Backtester._calculate_equity` (lines 337-352). -/
def calculate_equity (md : List (String × HistoricalDataPoint)) (s : BTState) : ℚ :=
  s.positions.foldl (fun eq pr =>
    match alookup md pr.1 with
    | none => eq
    | some dp =>
        let price_change := dp.mark_price - pr.2.entry_price
        eq + (pr.2.spot_size * price_change + pr.2.perp_size * price_change)
           + pr.2.funding_collected) s.capital

/-- Stable ascending insertion for the opportunity ranking: an earlier
element stays before a later one with the same |funding_rate|, matching
Python's stable `sort(key=abs(funding_rate), reverse=True)`. -/
def insert_opp (o : String × HistoricalDataPoint × PositionSignal) :
    List (String × HistoricalDataPoint × PositionSignal) →
    List (String × HistoricalDataPoint × PositionSignal)
  | [] => [o]
  | q :: qs =>
      if |o.2.1.funding_rate| ≥ |q.2.1.funding_rate| then o :: q :: qs
      else q :: insert_opp o qs

/-- Stable descending sort by |funding_rate| (lines 177-180). -/
def sort_opps (l : List (String × HistoricalDataPoint × PositionSignal)) :
    List (String × HistoricalDataPoint × PositionSignal) :=
  l.foldr insert_opp []

/-- `Backtester._process_timestamp` (lines 147-189): update phase over a
snapshot of the open-position keys, entry phase over ranked
opportunities, then equity sampling. -/
def process_timestamp (cfg : BacktestConfig) (timestamp : Int)
    (md : List (String × HistoricalDataPoint)) (s : BTState) : BTState :=
  let s1 := (s.positions.map Prod.fst).foldl (fun st asset =>
      match alookup md asset with
      | none => st
      | some dp => update_position cfg asset timestamp dp st) s
  let opportunities := md.foldl (fun acc pr =>
      if (alookup s1.positions pr.1).isSome then acc
      else
        let sig := get_signal cfg pr.2.funding_rate
        if sig = PositionSignal.NO_SIGNAL then acc
        else acc ++ [(pr.1, pr.2, sig)]) []
  let s2 := (sort_opps opportunities).foldl (fun st opp =>
      if can_open_position cfg st then open_position cfg opp.1 timestamp opp.2.1 opp.2.2 st
      else st) s1
  let equity := calculate_equity md s2
  { s2 with equity_curve := s2.equity_curve ++ [(timestamp, equity)] }

/-- Body of the end-of-run force-close loop of `Backtester.run` (lines
140-142): `if asset in market_data: self._close_position(asset, ts,
market_data[asset].mark_price)`. -/
def fc_step (cfg : BacktestConfig) (timestamp : Int)
    (md : List (String × HistoricalDataPoint)) (st : BTState) (asset : String) : BTState :=
  match alookup md asset with
  | none => st
  | some dp => close_position cfg asset timestamp dp.mark_price st

/-- The end-of-run force-close loop of `Backtester.run` (lines 139-142):
iterates over a snapshot of the open-position keys and closes those whose
asset appears in the final bucket's market data, at that bucket's mark
price; assets absent from the final bucket are skipped. -/
def force_close (cfg : BacktestConfig) (timestamp : Int)
    (md : List (String × HistoricalDataPoint)) (s : BTState) : BTState :=
  (s.positions.map Prod.fst).foldl (fc_step cfg timestamp md) s

/-- `all_points.extend(points)` over the input map in iteration order
(lines 110-112). -/
def flatten_points (input : List (String × List HistoricalDataPoint)) :
    List HistoricalDataPoint :=
  input.foldl (fun acc pr => acc ++ pr.2) []

/-- Stable ascending insertion by timestamp, matching Python's stable
`all_points.sort(key=timestamp)` (line 113). -/
def insert_by_ts (p : HistoricalDataPoint) :
    List HistoricalDataPoint → List HistoricalDataPoint
  | [] => [p]
  | q :: qs => if p.timestamp ≤ q.timestamp then p :: q :: qs else q :: insert_by_ts p qs

/-- Stable sort of all points by timestamp. -/
def sort_by_ts (l : List HistoricalDataPoint) : List HistoricalDataPoint :=
  l.foldr insert_by_ts []

/-- One step of building `data_by_time` (lines 124-131): bucket key is
`(timestamp // interval_ms) * interval_ms` (Python floor division); the
point is assigned into the inner per-asset dict. -/
def add_point (interval_ms : Int)
    (acc : List (Int × List (String × HistoricalDataPoint)))
    (p : HistoricalDataPoint) : List (Int × List (String × HistoricalDataPoint)) :=
  let rounded := (Int.fdiv p.timestamp interval_ms) * interval_ms
  match ilookup acc rounded with
  | none => acc ++ [(rounded, [(p.asset, p)])]
  | some inner => iinsert acc rounded (ainsert inner p.asset p)

/-- `data_by_time` built over the sorted point stream. -/
def build_buckets (interval_ms : Int) (pts : List HistoricalDataPoint) :
    List (Int × List (String × HistoricalDataPoint)) :=
  pts.foldl (add_point interval_ms) []

/-- Ascending insertion sort on bucket keys (`sorted(data_by_time.keys())`,
line 134; keys are distinct so stability is immaterial). -/
def insert_int (n : Int) : List Int → List Int
  | [] => [n]
  | m :: ms => if n ≤ m then n :: m :: ms else m :: insert_int n ms

/-- `sorted` on a list of integers. -/
def sort_ints (l : List Int) : List Int := l.foldr insert_int []

/-- `Backtester.run` (lines 93-145) up to result assembly: returns the
final engine state together with `start_time` and `end_time`.  The
Python loop variables `ts`/`market_data` retain the values of the final
iteration, so the force-close uses the last bucket; the `none` match arms
mirror states the source cannot reach (the timestamp list is non-empty
whenever the point list is). -/
def run_aux (cfg : BacktestConfig) (check_interval_hours : Int)
    (input : List (String × List HistoricalDataPoint)) : BTState × Int × Int :=
  let s0 := init_state cfg
  let all_points := sort_by_ts (flatten_points input)
  match all_points with
  | [] => (s0, 0, 0)
  | p :: rest =>
      let start_time := p.timestamp
      let end_time := rest.foldl (fun _ q => q.timestamp) p.timestamp
      let interval_ms := check_interval_hours * 3600 * 1000
      let data_by_time := build_buckets interval_ms (p :: rest)
      let timestamps := sort_ints (data_by_time.map Prod.fst)
      let s1 := timestamps.foldl (fun st ts =>
          match ilookup data_by_time ts with
          | none => st
          | some md => process_timestamp cfg ts md st) s0
      let s2 := match timestamps.foldl (fun _ ts => some ts) (none : Option Int) with
        | none => s1
        | some last_ts =>
            match ilookup data_by_time last_ts with
            | none => s1
            | some md => force_close cfg last_ts md s1
      (s2, start_time, end_time)

/-- `mdd_go peak max_dd samples`: the loop of
`Backtester._calculate_max_drawdown` (lines 399-408). -/
def mdd_go : ℚ → ℚ → List (Int × ℚ) → ℚ
  | _, max_dd, [] => max_dd
  | peak, max_dd, pr :: rest =>
      let peak' := if pr.2 > peak then pr.2 else peak
      let dd := (peak' - pr.2) / peak'
      mdd_go peak' (max max_dd dd) rest

/-- `Backtester._calculate_max_drawdown` (lines 394-408). -/
def calculate_max_drawdown (curve : List (Int × ℚ)) : ℚ :=
  match curve with
  | [] => 0
  | pr :: _ => mdd_go pr.2 0 curve

/-- `Backtester._create_result` (lines 354-392).  Note: the source reads
`closed_positions` from `self.positions` — the dict of OPEN positions —
from which every closed position was already deleted by
`_close_position`; the source's own comment at line 361 ('This is
simplified - need to track actual wins/losses') flags this.  The Sharpe
field is omitted (module comment). -/
def create_result (cfg : BacktestConfig) (start_time end_time : Int)
    (s : BTState) : BacktestResult :=
  let total_return := s.capital - cfg.initial_capital
  let total_return_pct := total_return / cfg.initial_capital
  let closed_positions := (s.positions.map Prod.snd).filter (fun p => p.exit_time.isSome)
  let num_winning := (closed_positions.filter (fun p => p.pnl > 0)).length
  let num_losing := (closed_positions.filter (fun p => p.pnl < 0)).length
  let win_rate := (num_winning : ℚ) / ((max 1 closed_positions.length : Nat) : ℚ)
  let max_drawdown := calculate_max_drawdown s.equity_curve
  let total_funding := (closed_positions.map (fun p => p.funding_collected)).foldl (· + ·) 0
  { start_time := start_time, end_time := end_time,
    initial_capital := cfg.initial_capital, final_capital := s.capital,
    total_return := total_return, total_return_pct := total_return_pct,
    funding_collected := total_funding,
    num_trades := (s.trades.filter (fun t => t.action = "open")).length,
    num_winning_trades := num_winning, num_losing_trades := num_losing,
    win_rate := win_rate, max_drawdown := max_drawdown,
    positions := closed_positions, trades := s.trades, equity_curve := s.equity_curve }

/-- `Backtester.run`, full: final state assembled into a `BacktestResult`. -/
def run (cfg : BacktestConfig) (check_interval_hours : Int)
    (input : List (String × List HistoricalDataPoint)) : BacktestResult :=
  let r := run_aux cfg check_interval_hours input
  create_result cfg r.2.1 r.2.2 r.1

/-- The default configuration of `Backtester.__init__` (lines 62-69). -/
def defaultConfig : BacktestConfig :=
  { initial_capital := 10000, funding_threshold := 1 / 10000,
    max_position_size_usd := 5000, leverage := 2,
    rebalance_threshold := 1 / 20, trading_fee := 1 / 5000 }

/-! ### Association-list lemmas (dict semantics) -/

theorem alookup_ainsert_self {α : Type} (l : List (String × α)) (k : String) (v : α) :
    alookup (ainsert l k v) k = some v := by
  induction l with
  | nil => simp [ainsert, alookup]
  | cons pr rest ih =>
      obtain ⟨a, w⟩ := pr
      by_cases h : a = k
      · simp [ainsert, alookup, h]
      · simp [ainsert, alookup, h, ih]

theorem ainsert_length_le {α : Type} (l : List (String × α)) (k : String) (v : α) :
    (ainsert l k v).length ≤ l.length + 1 := by
  induction l with
  | nil => simp [ainsert]
  | cons pr rest ih =>
      obtain ⟨a, w⟩ := pr
      by_cases h : a = k
      · simp [ainsert, h]
      · simp [ainsert, h]
        omega

theorem keys_ainsert_of_mem {α : Type} (l : List (String × α)) (k : String) (v : α)
    (h : k ∈ l.map Prod.fst) : (ainsert l k v).map Prod.fst = l.map Prod.fst := by
  induction l with
  | nil => cases h
  | cons pr rest ih =>
      obtain ⟨a, w⟩ := pr
      by_cases hak : a = k
      · rw [show ainsert ((a, w) :: rest) k v = (a, v) :: rest by simp [ainsert, hak]]
        rfl
      · rw [show ainsert ((a, w) :: rest) k v = (a, w) :: ainsert rest k v by
          simp [ainsert, hak]]
        have hk : k ∈ rest.map Prod.fst := by
          rcases List.mem_cons.mp h with he | he
          · exact absurd he.symm hak
          · exact he
        show a :: (ainsert rest k v).map Prod.fst = a :: rest.map Prod.fst
        rw [ih hk]

theorem keys_ainsert_of_not_mem {α : Type} (l : List (String × α)) (k : String) (v : α)
    (h : k ∉ l.map Prod.fst) : (ainsert l k v).map Prod.fst = l.map Prod.fst ++ [k] := by
  induction l with
  | nil => rfl
  | cons pr rest ih =>
      obtain ⟨a, w⟩ := pr
      have hak : a ≠ k := fun he => h (by rw [he]; exact List.mem_cons_self _ _)
      have hk : k ∉ rest.map Prod.fst := fun he => h (List.mem_cons_of_mem _ he)
      rw [show ainsert ((a, w) :: rest) k v = (a, w) :: ainsert rest k v by
        simp [ainsert, hak]]
      show a :: (ainsert rest k v).map Prod.fst = (a :: rest.map Prod.fst) ++ [k]
      rw [ih hk]
      rfl

theorem nodup_keys_ainsert {α : Type} (l : List (String × α)) (k : String) (v : α)
    (h : (l.map Prod.fst).Nodup) : ((ainsert l k v).map Prod.fst).Nodup := by
  by_cases hk : k ∈ l.map Prod.fst
  · rw [keys_ainsert_of_mem l k v hk]; exact h
  · rw [keys_ainsert_of_not_mem l k v hk]
    exact List.nodup_append.mpr ⟨h, List.nodup_singleton k,
      fun x hx hx1 => hk (by rwa [List.mem_singleton.mp hx1] at hx)⟩

theorem aerase_sublist {α : Type} (l : List (String × α)) (k : String) :
    List.Sublist (aerase l k) l := by
  induction l with
  | nil => exact List.Sublist.refl []
  | cons pr rest ih =>
      obtain ⟨a, w⟩ := pr
      by_cases h : a = k
      · rw [show aerase ((a, w) :: rest) k = rest by simp [aerase, h]]
        exact List.sublist_cons_self (a, w) rest
      · rw [show aerase ((a, w) :: rest) k = (a, w) :: aerase rest k by simp [aerase, h]]
        exact List.Sublist.cons₂ (a, w) ih

theorem nodup_keys_aerase {α : Type} (l : List (String × α)) (k : String)
    (h : (l.map Prod.fst).Nodup) : ((aerase l k).map Prod.fst).Nodup :=
  List.Nodup.sublist (List.Sublist.map Prod.fst (aerase_sublist l k)) h

theorem mem_aerase_of_ne {α : Type} (l : List (String × α)) (k : String)
    (pr : String × α) (hm : pr ∈ l) (hne : pr.1 ≠ k) : pr ∈ aerase l k := by
  induction l with
  | nil => cases hm
  | cons q rest ih =>
      obtain ⟨a, w⟩ := q
      by_cases h : a = k
      · rw [show aerase ((a, w) :: rest) k = rest by simp [aerase, h]]
        rcases List.mem_cons.mp hm with he | he
        · exact absurd (by rw [he]; exact h) hne
        · exact he
      · rw [show aerase ((a, w) :: rest) k = (a, w) :: aerase rest k by simp [aerase, h]]
        rcases List.mem_cons.mp hm with he | he
        · exact he ▸ List.mem_cons_self _ _
        · exact List.mem_cons_of_mem _ (ih he)

theorem keyne_of_mem_aerase {α : Type} (l : List (String × α)) (k : String)
    (pr : String × α) (hnd : (l.map Prod.fst).Nodup) (hm : pr ∈ aerase l k) :
    pr.1 ≠ k := by
  induction l with
  | nil => rw [show aerase ([] : List (String × α)) k = [] from rfl] at hm; cases hm
  | cons q rest ih =>
      obtain ⟨a, w⟩ := q
      have hnd' := List.nodup_cons.mp hnd
      by_cases h : a = k
      · rw [show aerase ((a, w) :: rest) k = rest by simp [aerase, h]] at hm
        intro hk
        have hmem : pr.1 ∈ rest.map Prod.fst := List.mem_map_of_mem Prod.fst hm
        rw [hk, ← h] at hmem
        exact hnd'.1 hmem
      · rw [show aerase ((a, w) :: rest) k = (a, w) :: aerase rest k by
          simp [aerase, h]] at hm
        rcases List.mem_cons.mp hm with he | he
        · rw [he]; exact h
        · exact ih hnd'.2 he

theorem alookup_isSome_of_mem {α : Type} (l : List (String × α))
    (pr : String × α) (hm : pr ∈ l) : (alookup l pr.1).isSome := by
  induction l with
  | nil => cases hm
  | cons q rest ih =>
      obtain ⟨a, w⟩ := q
      by_cases h : a = pr.1
      · simp [alookup, h]
      · rcases List.mem_cons.mp hm with he | he
        · exact absurd (by rw [he]) h
        · simpa [alookup, h] using ih he

theorem foldl_preserve {α β : Type} (P : β → Prop) (f : β → α → β)
    (hf : ∀ s a, P s → P (f s a)) (l : List α) :
    ∀ s : β, P s → P (l.foldl f s) := by
  induction l with
  | nil => intro s hs; exact hs
  | cons a rest ih => intro s hs; exact ih (f s a) (hf s a hs)

theorem foldl_append_nil (input : List (String × List HistoricalDataPoint))
    (h : ∀ pr ∈ input, pr.2 = ([] : List HistoricalDataPoint)) :
    ∀ acc : List HistoricalDataPoint,
      input.foldl (fun a pr => a ++ pr.2) acc = acc := by
  induction input with
  | nil => intro acc; rfl
  | cons pr rest ih =>
      intro acc
      rw [List.foldl_cons, h pr (List.mem_cons_self _ _), List.append_nil]
      exact ih (fun q hq => h q (List.mem_cons_of_mem _ hq)) acc

/-! ### Preservation of per-asset uniqueness by the engine operations -/

theorem close_position_nodup (cfg : BacktestConfig) (asset : String) (ts : Int)
    (price : ℚ) (s : BTState) (h : (s.positions.map Prod.fst).Nodup) :
    (((close_position cfg asset ts price s).positions).map Prod.fst).Nodup := by
  unfold close_position
  cases hl : alookup s.positions asset with
  | none => exact h
  | some pos => exact nodup_keys_aerase s.positions asset h

theorem accrue_funding_nodup (asset : String) (dp : HistoricalDataPoint)
    (s : BTState) (h : (s.positions.map Prod.fst).Nodup) :
    (((accrue_funding asset dp s).positions).map Prod.fst).Nodup := by
  unfold accrue_funding
  cases hl : alookup s.positions asset with
  | none => exact h
  | some pos => exact nodup_keys_ainsert s.positions asset _ h

theorem update_position_nodup (cfg : BacktestConfig) (asset : String) (ts : Int)
    (dp : HistoricalDataPoint) (s : BTState) (h : (s.positions.map Prod.fst).Nodup) :
    (((update_position cfg asset ts dp s).positions).map Prod.fst).Nodup := by
  unfold update_position
  cases hl : alookup s.positions asset with
  | none => exact h
  | some pos =>
      dsimp only
      by_cases hex : get_signal cfg dp.funding_rate ≠ pos.signal ∨
          get_signal cfg dp.funding_rate = PositionSignal.NO_SIGNAL
      · rw [if_pos hex]
        exact close_position_nodup cfg asset ts dp.mark_price _
          (accrue_funding_nodup asset dp s h)
      · rw [if_neg hex]
        exact accrue_funding_nodup asset dp s h

theorem open_position_nodup (cfg : BacktestConfig) (asset : String) (ts : Int)
    (dp : HistoricalDataPoint) (sig : PositionSignal) (s : BTState)
    (h : (s.positions.map Prod.fst).Nodup) :
    (((open_position cfg asset ts dp sig s).positions).map Prod.fst).Nodup := by
  unfold open_position
  exact nodup_keys_ainsert s.positions asset _ h

theorem fc_step_nodup (cfg : BacktestConfig) (ts : Int)
    (md : List (String × HistoricalDataPoint)) (s : BTState) (asset : String)
    (h : (s.positions.map Prod.fst).Nodup) :
    (((fc_step cfg ts md s asset).positions).map Prod.fst).Nodup := by
  unfold fc_step
  cases hl : alookup md asset with
  | none => exact h
  | some dp => exact close_position_nodup cfg asset ts dp.mark_price s h

/-! ### Membership behaviour of the force-close loop -/

theorem close_position_positions_subset (cfg : BacktestConfig) (asset : String)
    (ts : Int) (price : ℚ) (s : BTState) (pr : String × BacktestPosition)
    (hm : pr ∈ (close_position cfg asset ts price s).positions) : pr ∈ s.positions := by
  unfold close_position at hm
  cases hl : alookup s.positions asset with
  | none => rw [hl] at hm; exact hm
  | some pos =>
      rw [hl] at hm
      exact (aerase_sublist s.positions asset).mem hm

theorem fc_step_positions_subset (cfg : BacktestConfig) (ts : Int)
    (md : List (String × HistoricalDataPoint)) (s : BTState) (asset : String)
    (pr : String × BacktestPosition)
    (hm : pr ∈ (fc_step cfg ts md s asset).positions) : pr ∈ s.positions := by
  unfold fc_step at hm
  cases hl : alookup md asset with
  | none => rw [hl] at hm; exact hm
  | some dp =>
      rw [hl] at hm
      exact close_position_positions_subset cfg asset ts dp.mark_price s pr hm

theorem fc_go_mem (cfg : BacktestConfig) (ts : Int)
    (md : List (String × HistoricalDataPoint)) (ks : List String) :
    ∀ s : BTState, (s.positions.map Prod.fst).Nodup →
    ∀ pr ∈ (ks.foldl (fc_step cfg ts md) s).positions,
      pr ∈ s.positions ∧ (pr.1 ∈ ks → alookup md pr.1 = none) := by
  induction ks with
  | nil =>
      intro s _ pr hm
      exact ⟨hm, fun hk => absurd hk (List.not_mem_nil pr.1)⟩
  | cons a ks ih =>
      intro s hnd pr hm
      rw [List.foldl_cons] at hm
      have hnd' : ((fc_step cfg ts md s a).positions.map Prod.fst).Nodup :=
        fc_step_nodup cfg ts md s a hnd
      obtain ⟨hm1, hm2⟩ := ih (fc_step cfg ts md s a) hnd' pr hm
      refine ⟨fc_step_positions_subset cfg ts md s a pr hm1, ?_⟩
      intro hk
      rcases List.mem_cons.mp hk with hka | hks
      · cases hmd : alookup md pr.1 with
        | none => rfl
        | some dp =>
            exfalso
            rw [hka] at hmd
            unfold fc_step at hm1
            rw [hmd] at hm1
            unfold close_position at hm1
            cases hsp : alookup s.positions a with
            | none =>
                rw [hsp] at hm1
                have := alookup_isSome_of_mem s.positions pr hm1
                rw [hka, hsp] at this
                exact Bool.noConfusion this
            | some pos =>
                rw [hsp] at hm1
                exact keyne_of_mem_aerase s.positions a pr hnd hm1 hka
      · exact hm2 hks

theorem fc_go_keep (cfg : BacktestConfig) (ts : Int)
    (md : List (String × HistoricalDataPoint)) (ks : List String) :
    ∀ (s : BTState) (pr : String × BacktestPosition), pr ∈ s.positions →
      alookup md pr.1 = none → pr ∈ (ks.foldl (fc_step cfg ts md) s).positions := by
  induction ks with
  | nil => intro s pr hm _; exact hm
  | cons a ks ih =>
      intro s pr hm hmd
      rw [List.foldl_cons]
      refine ih (fc_step cfg ts md s a) pr ?_ hmd
      unfold fc_step
      cases hla : alookup md a with
      | none => exact hm
      | some dp =>
          unfold close_position
          cases hsp : alookup s.positions a with
          | none => exact hm
          | some pos =>
              have hne : pr.1 ≠ a := by
                intro he
                rw [he, hla] at hmd
                exact Option.noConfusion hmd
              exact mem_aerase_of_ne s.positions a pr hm hne

/-! ### Max-drawdown loop lemmas -/

theorem mdd_go_ge (l : List (Int × ℚ)) :
    ∀ (peak max_dd : ℚ), max_dd ≤ mdd_go peak max_dd l := by
  induction l with
  | nil => intro peak max_dd; exact le_refl _
  | cons pr rest ih =>
      intro peak max_dd
      exact le_trans (le_max_left _ _) (ih _ _)

theorem mdd_go_chain (l : List (Int × ℚ)) :
    ∀ peak : ℚ, (∀ x ∈ l.head?, peak ≤ x.2) →
      List.Chain' (fun a b : Int × ℚ => a.2 ≤ b.2) l → mdd_go peak 0 l = 0 := by
  induction l with
  | nil => intro peak _ _; rfl
  | cons pr rest ih =>
      intro peak hpeak hchain
      have hple : peak ≤ pr.2 := hpeak pr (by simp)
      have hpeak' : (if pr.2 > peak then pr.2 else peak) = pr.2 := by
        by_cases h : pr.2 > peak
        · rw [if_pos h]
        · rw [if_neg h]
          exact le_antisymm hple (not_lt.mp h)
      show mdd_go (if pr.2 > peak then pr.2 else peak)
          (max 0 (((if pr.2 > peak then pr.2 else peak) - pr.2) /
            (if pr.2 > peak then pr.2 else peak))) rest = 0
      rw [hpeak', sub_self, zero_div, max_self]
      exact ih pr.2 (fun x hx => (List.chain'_cons'.mp hchain).1 x hx) hchain.tail

/-! ### Concrete scenarios used by counterexamples and witnesses -/

/-- One asset, funding 0.01, 0.01, 0 at flat price 100: the position opens
in bucket 1, collects funding 50 in bucket 2, and closes in bucket 3 with
pnl 50 - 2 = 48 > 0. -/
def c1_input : List (String × List HistoricalDataPoint) :=
  [("A", [{ timestamp := 0, asset := "A", funding_rate := 1 / 100, mark_price := 100 },
          { timestamp := 28800000, asset := "A", funding_rate := 1 / 100, mark_price := 100 },
          { timestamp := 57600000, asset := "A", funding_rate := 0, mark_price := 100 }])]

/-- Capital 20000 so that both assets can be opened. -/
def c2_cfg : BacktestConfig := { defaultConfig with initial_capital := 20000 }

/-- Asset A appears only in the first bucket, asset B only in the final
bucket; A's position can therefore never be force-closed. -/
def c2_input : List (String × List HistoricalDataPoint) :=
  [("A", [{ timestamp := 0, asset := "A", funding_rate := 1 / 100, mark_price := 100 }]),
   ("B", [{ timestamp := 28800000, asset := "B", funding_rate := 1 / 100, mark_price := 100 }])]

/-- A single data point with a negative mark price and an
above-threshold funding rate. -/
def c3_input : List (String × List HistoricalDataPoint) :=
  [("A", [{ timestamp := 0, asset := "A", funding_rate := 1 / 100, mark_price := -100 }])]

/-- Capital 12503: the capacity bound is 2 before any fee is paid and
falls to 1 after two openings charge 2 USD of fees each. -/
def c6_cfg : BacktestConfig := { defaultConfig with initial_capital := 12503 }

/-- Two assets in the same bucket, both with above-threshold funding. -/
def c6_input : List (String × List HistoricalDataPoint) :=
  [("A", [{ timestamp := 0, asset := "A", funding_rate := 2 / 100, mark_price := 100 }]),
   ("B", [{ timestamp := 0, asset := "B", funding_rate := 1 / 100, mark_price := 100 }])]

/-- The single market-data bucket produced from `c6_input`. -/
def c6_md : List (String × HistoricalDataPoint) :=
  [("A", { timestamp := 0, asset := "A", funding_rate := 2 / 100, mark_price := 100 }),
   ("B", { timestamp := 0, asset := "B", funding_rate := 1 / 100, mark_price := 100 })]

/-- Funding -0.01 opens a short-spot/long-perp position; the next bucket's
rate +10 makes it pay 50000 of funding before the signal flip closes it,
driving equity far below zero. -/
def c8_input : List (String × List HistoricalDataPoint) :=
  [("A", [{ timestamp := 0, asset := "A", funding_rate := -1 / 100, mark_price := 100 },
          { timestamp := 28800000, asset := "A", funding_rate := 10, mark_price := 100 }])]

/-- An open position on asset A, used to exercise calls on an
already-open asset. -/
def c7_pos : BacktestPosition :=
  { asset := "A", entry_time := 0, entry_price := 100, size := 50,
    signal := PositionSignal.LONG_SPOT_SHORT_PERP, spot_size := 50, perp_size := -50 }

/-- A state holding the open position `c7_pos`. -/
def c7_state : BTState :=
  { capital := 10000, positions := [("A", c7_pos)], trades := [], equity_curve := [] }

/-- A later data point for asset A. -/
def c7_dp : HistoricalDataPoint :=
  { timestamp := 0, asset := "A", funding_rate := 1 / 100, mark_price := 200 }

/-- A single asset with empty history, for the degenerate-input scenario. -/
def c9_input : List (String × List HistoricalDataPoint) := [("BTC", [])]

/-- The 'open' trade the run is expected to record from the negative-price
point of `c3_input`. -/
def c3_trade : BacktestTrade :=
  { timestamp := 0, asset := "A", action := "open", price := -100, size := -50,
    signal := some PositionSignal.LONG_SPOT_SHORT_PERP }

/-- A two-position state with market data covering only asset B, to
exercise the force-close loop. -/
def w2_posA : BacktestPosition :=
  { asset := "A", entry_time := 0, entry_price := 100, size := 50,
    signal := PositionSignal.LONG_SPOT_SHORT_PERP, spot_size := 50, perp_size := -50 }

/-- Second open position, on asset B. -/
def w2_posB : BacktestPosition :=
  { asset := "B", entry_time := 0, entry_price := 200, size := 25,
    signal := PositionSignal.LONG_SPOT_SHORT_PERP, spot_size := 25, perp_size := -25 }

/-- State holding open positions on A and B. -/
def w2_state : BTState :=
  { capital := 10000, positions := [("A", w2_posA), ("B", w2_posB)],
    trades := [], equity_curve := [] }

/-- Market data mentioning only asset B. -/
def w2_md : List (String × HistoricalDataPoint) :=
  [("B", { timestamp := 28800000, asset := "B", funding_rate := 1 / 100, mark_price := 200 })]

/-! ### Evaluation helper simp lemmas (constructor and literal equalities
that the kernel cannot reduce on its own) -/

@[simp] theorem str_A_eq_B : (("A" : String) = "B") = False := by decide

@[simp] theorem str_B_eq_A : (("B" : String) = "A") = False := by decide

@[simp] theorem str_open_eq_close : (("open" : String) = "close") = False := by decide

@[simp] theorem str_close_eq_open : (("close" : String) = "open") = False := by decide

@[simp] theorem long_eq_no_false :
    (PositionSignal.LONG_SPOT_SHORT_PERP = PositionSignal.NO_SIGNAL) = False := by simp

@[simp] theorem short_eq_no_false :
    (PositionSignal.SHORT_SPOT_LONG_PERP = PositionSignal.NO_SIGNAL) = False := by simp

@[simp] theorem long_eq_short_false :
    (PositionSignal.LONG_SPOT_SHORT_PERP = PositionSignal.SHORT_SPOT_LONG_PERP) = False := by simp

@[simp] theorem short_eq_long_false :
    (PositionSignal.SHORT_SPOT_LONG_PERP = PositionSignal.LONG_SPOT_SHORT_PERP) = False := by simp

@[simp] theorem no_eq_long_false :
    (PositionSignal.NO_SIGNAL = PositionSignal.LONG_SPOT_SHORT_PERP) = False := by simp

@[simp] theorem no_eq_short_false :
    (PositionSignal.NO_SIGNAL = PositionSignal.SHORT_SPOT_LONG_PERP) = False := by simp

/-! ### Claim theorems -/

/-- C4: for every funding update of an open position, with
V = |perp_size| * entry_price, a LongSpotShortPerp position accrues
`r * V` when `r > 0` and `0` otherwise; a ShortSpotLongPerp position
accrues `-(r * V)` when `r > 0` and `|r| * V` otherwise; and the accrual
is added both to the position's `funding_collected` and to capital. -/
theorem claim_C4_funding_accrual (asset : String) (dp : HistoricalDataPoint)
    (s : BTState) (pos : BacktestPosition)
    (h : alookup s.positions asset = some pos) :
    (pos.signal = PositionSignal.LONG_SPOT_SHORT_PERP →
      calculate_funding_pnl pos dp.funding_rate =
        if 0 < dp.funding_rate then
          dp.funding_rate * (|pos.perp_size| * pos.entry_price) else 0) ∧
    (pos.signal = PositionSignal.SHORT_SPOT_LONG_PERP →
      calculate_funding_pnl pos dp.funding_rate =
        if 0 < dp.funding_rate then
          -(dp.funding_rate * (|pos.perp_size| * pos.entry_price))
        else |dp.funding_rate| * (|pos.perp_size| * pos.entry_price)) ∧
    (accrue_funding asset dp s).capital =
      s.capital + calculate_funding_pnl pos dp.funding_rate ∧
    alookup (accrue_funding asset dp s).positions asset =
      some { pos with funding_collected :=
        pos.funding_collected + calculate_funding_pnl pos dp.funding_rate } := by
  refine ⟨?_, ?_, ?_, ?_⟩
  · intro hsig
    simp only [calculate_funding_pnl, hsig, if_true, reduceIte]
    by_cases hr : 0 < dp.funding_rate
    · rw [if_pos hr, if_pos hr, mul_comm]
    · rw [if_neg hr, if_neg hr]
  · intro hsig
    have hne : ¬ (pos.signal = PositionSignal.LONG_SPOT_SHORT_PERP) := by
      rw [hsig]; intro hc; exact PositionSignal.noConfusion hc
    simp only [calculate_funding_pnl, hne, if_false, reduceIte]
    by_cases hr : 0 < dp.funding_rate
    · rw [if_pos hr, if_pos hr, neg_mul, mul_comm]
    · rw [if_neg hr, if_neg hr, mul_comm]
  · unfold accrue_funding
    rw [h]
  · unfold accrue_funding
    rw [h]
    exact alookup_ainsert_self _ _ _

/-- C4 witness: the theorem applied to the concrete state `c7_state`. -/
theorem claim_C4_witness :
    alookup c7_state.positions "A" = some c7_pos ∧
    ((c7_pos.signal = PositionSignal.LONG_SPOT_SHORT_PERP →
      calculate_funding_pnl c7_pos c7_dp.funding_rate =
        if 0 < c7_dp.funding_rate then
          c7_dp.funding_rate * (|c7_pos.perp_size| * c7_pos.entry_price) else 0) ∧
    (c7_pos.signal = PositionSignal.SHORT_SPOT_LONG_PERP →
      calculate_funding_pnl c7_pos c7_dp.funding_rate =
        if 0 < c7_dp.funding_rate then
          -(c7_dp.funding_rate * (|c7_pos.perp_size| * c7_pos.entry_price))
        else |c7_dp.funding_rate| * (|c7_pos.perp_size| * c7_pos.entry_price)) ∧
    (accrue_funding "A" c7_dp c7_state).capital =
      c7_state.capital + calculate_funding_pnl c7_pos c7_dp.funding_rate ∧
    alookup (accrue_funding "A" c7_dp c7_state).positions "A" =
      some { c7_pos with funding_collected :=
        c7_pos.funding_collected + calculate_funding_pnl c7_pos c7_dp.funding_rate }) :=
  ⟨by decide, claim_C4_funding_accrual "A" c7_dp c7_state c7_pos (by decide)⟩

/-- C5: every close records
pnl = funding_collected + (spot_size + perp_size) * (price - entry_price)
      - 2 * |size| * price * fee,
and capital is increased by exactly that pnl. -/
theorem claim_C5_close_pnl (cfg : BacktestConfig) (asset : String) (ts : Int)
    (price : ℚ) (s : BTState) (pos : BacktestPosition)
    (h : alookup s.positions asset = some pos) :
    (closed_record cfg pos ts price).pnl =
      pos.funding_collected +
        (pos.spot_size + pos.perp_size) * (price - pos.entry_price) -
        2 * |pos.size| * price * cfg.trading_fee ∧
    (close_position cfg asset ts price s).capital =
      s.capital + (closed_record cfg pos ts price).pnl := by
  constructor
  · unfold closed_record
    dsimp only
    ring
  · unfold close_position
    rw [h]

/-- C5 witness: the theorem applied to the concrete state `c7_state`. -/
theorem claim_C5_witness :
    alookup c7_state.positions "A" = some c7_pos ∧
    ((closed_record defaultConfig c7_pos 99 100).pnl =
      c7_pos.funding_collected +
        (c7_pos.spot_size + c7_pos.perp_size) * (100 - c7_pos.entry_price) -
        2 * |c7_pos.size| * 100 * defaultConfig.trading_fee ∧
    (close_position defaultConfig "A" 99 100 c7_state).capital =
      c7_state.capital + (closed_record defaultConfig c7_pos 99 100).pnl) :=
  ⟨by decide, claim_C5_close_pnl defaultConfig "A" 99 100 c7_state c7_pos (by decide)⟩

/-- C10: every opened position has notional
min(max_position_size_usd, 0.8 * capital), size = notional / mark price,
exactly opposite spot/perp legs of magnitude |size|, and capital falls by
exactly 2 * notional * fee. -/
theorem claim_C10_open_sizing (cfg : BacktestConfig) (asset : String) (ts : Int)
    (dp : HistoricalDataPoint) (sig : PositionSignal) (s : BTState) :
    (open_position cfg asset ts dp sig s).capital =
      s.capital - 2 * min cfg.max_position_size_usd (s.capital * (4 / 5)) * cfg.trading_fee ∧
    ∃ p : BacktestPosition,
      alookup (open_position cfg asset ts dp sig s).positions asset = some p ∧
      p.size = min cfg.max_position_size_usd (s.capital * (4 / 5)) / dp.mark_price ∧
      p.spot_size + p.perp_size = 0 ∧
      p.perp_size = -p.spot_size ∧
      |p.spot_size| = |p.size| := by
  constructor
  · unfold open_position
    dsimp only
    ring
  · unfold open_position
    dsimp only
    refine ⟨_, alookup_ainsert_self _ _ _, rfl, ?_, ?_, ?_⟩
    · by_cases hs : sig = PositionSignal.LONG_SPOT_SHORT_PERP
      · rw [if_pos hs, if_pos hs]; ring
      · rw [if_neg hs, if_neg hs]; ring
    · by_cases hs : sig = PositionSignal.LONG_SPOT_SHORT_PERP
      · rw [if_pos hs, if_pos hs]
      · rw [if_neg hs, if_neg hs, neg_neg]
    · by_cases hs : sig = PositionSignal.LONG_SPOT_SHORT_PERP
      · rw [if_pos hs]
      · rw [if_neg hs, abs_neg]

/-- C6 amended: each open is guarded by the capacity bound evaluated at
the capital immediately before that open; the post-open count never
exceeds max(count-before, max(1, int(0.8 * capital-before / max_size))). -/
theorem claim_C6_amended (cfg : BacktestConfig) (asset : String) (ts : Int)
    (dp : HistoricalDataPoint) (sig : PositionSignal) (s : BTState) :
    (((if can_open_position cfg s = true then open_position cfg asset ts dp sig s
       else s).positions.length : Int))
      ≤ max (s.positions.length : Int)
          (max 1 (pyTrunc (s.capital * (4 / 5) / cfg.max_position_size_usd))) := by
  by_cases h : can_open_position cfg s = true
  · rw [if_pos h]
    have hlt : (s.positions.length : Int) <
        max 1 (pyTrunc (s.capital * (4 / 5) / cfg.max_position_size_usd)) := by
      simpa [can_open_position] using h
    have hlen : (open_position cfg asset ts dp sig s).positions.length ≤
        s.positions.length + 1 := by
      unfold open_position
      dsimp only
      exact ainsert_length_le _ _ _
    have hcast : ((open_position cfg asset ts dp sig s).positions.length : Int) ≤
        (s.positions.length : Int) + 1 := by exact_mod_cast hlen
    exact le_trans hcast (le_trans (Int.add_one_le_iff.mpr hlt) (le_max_right _ _))
  · rw [if_neg h]
    exact le_max_left _ _

/-- C6 counterexample: running `c6_input` (capital 12503, two qualifying
assets in a single bucket) opens two positions, after which the bound
max(1, int(0.8 * capital / max_position_size_usd)) evaluated at the
current capital is 1 < 2 — the claimed invariant fails at that instant. -/
theorem claim_C6_counterexample :
    build_buckets (8 * 3600 * 1000) (sort_by_ts (flatten_points c6_input)) = [(0, c6_md)] ∧
    (process_timestamp c6_cfg 0 c6_md (init_state c6_cfg)).positions.length = 2 ∧
    max 1 (pyTrunc ((process_timestamp c6_cfg 0 c6_md (init_state c6_cfg)).capital * (4 / 5) /
      c6_cfg.max_position_size_usd)) = 1 := by
  refine ⟨?_, ?_, ?_⟩ <;>
  norm_num [build_buckets, add_point, sort_by_ts, insert_by_ts, flatten_points, ilookup,
    iinsert, process_timestamp, update_position, accrue_funding, close_position, closed_record,
    open_position, can_open_position, get_signal, calculate_funding_pnl, calculate_equity,
    sort_opps, insert_opp, alookup, ainsert, aerase, pyTrunc, init_state, c6_cfg, c6_input,
    c6_md, defaultConfig, List.foldl_cons, List.foldl_nil, List.foldr_cons, List.foldr_nil,
    abs_of_nonneg, abs_of_nonpos, Int.fdiv]

/-- C7 counterexample: a direct open call on an asset that already holds
an open position is not a no-op — it charges fees (capital changes) and
appends an 'open' trade. -/
theorem claim_C7_counterexample :
    (alookup c7_state.positions "A").isSome = true ∧
    (open_position defaultConfig "A" 0 c7_dp
      PositionSignal.LONG_SPOT_SHORT_PERP c7_state).capital ≠ c7_state.capital ∧
    (open_position defaultConfig "A" 0 c7_dp
      PositionSignal.LONG_SPOT_SHORT_PERP c7_state).trades.length =
      c7_state.trades.length + 1 := by
  refine ⟨by decide, ?_, ?_⟩ <;>
  norm_num [open_position, ainsert, alookup, c7_state, c7_dp, c7_pos, defaultConfig]

/-- C7 amended: per-asset uniqueness of open positions (no-duplicate-keys)
is preserved by each bucket's processing, so at every simulated bucket
each asset holds at most one open position; the no-op guarantee for a
repeated open call does not hold (see the counterexample). -/
theorem claim_C7_amended (cfg : BacktestConfig) (ts : Int)
    (md : List (String × HistoricalDataPoint)) (s : BTState)
    (h : (s.positions.map Prod.fst).Nodup) :
    ((process_timestamp cfg ts md s).positions.map Prod.fst).Nodup := by
  unfold process_timestamp
  dsimp only
  apply foldl_preserve (fun st : BTState => (st.positions.map Prod.fst).Nodup)
  · intro st opp hst
    by_cases hc : can_open_position cfg st = true
    · rw [if_pos hc]
      exact open_position_nodup cfg opp.1 ts opp.2.1 opp.2.2 st hst
    · rw [if_neg hc]
      exact hst
  · apply foldl_preserve (fun st : BTState => (st.positions.map Prod.fst).Nodup)
    · intro st asset hst
      cases hl : alookup md asset with
      | none => exact hst
      | some dp => exact update_position_nodup cfg asset ts dp st hst
    · exact h

/-- C7 witness: the amended theorem applied to the concrete two-asset
bucket `c6_md` from the fresh state. -/
theorem claim_C7_witness :
    ((init_state c6_cfg).positions.map Prod.fst).Nodup ∧
    ((process_timestamp c6_cfg 0 c6_md (init_state c6_cfg)).positions.map Prod.fst).Nodup :=
  ⟨by decide, claim_C7_amended c6_cfg 0 c6_md (init_state c6_cfg) (by decide)⟩

/-- C2 counterexample: asset A's position, untouched because A is absent
from the final bucket, is still open when the run ends — the result does
not reflect "no outstanding open position". -/
theorem claim_C2_counterexample :
    (run_aux c2_cfg 8 c2_input).1.positions.map Prod.fst = ["A"] := by
  norm_num [run_aux, build_buckets, add_point, sort_by_ts, insert_by_ts, flatten_points,
    sort_ints, insert_int, ilookup, iinsert, force_close, fc_step, process_timestamp,
    update_position, accrue_funding, close_position, closed_record, open_position,
    can_open_position, get_signal, calculate_funding_pnl, calculate_equity, sort_opps,
    insert_opp, alookup, ainsert, aerase, pyTrunc, init_state, c2_cfg, c2_input,
    defaultConfig, List.foldl_cons, List.foldl_nil, List.foldr_cons, List.foldr_nil,
    abs_of_nonneg, abs_of_nonpos, Int.fdiv]

/-- C2 amended: the end-of-run loop force-closes exactly the still-open
positions whose asset appears in the final bucket's market data (at that
bucket's mark price, by definition of `fc_step`); positions whose asset is
absent from the final bucket remain open. -/
theorem claim_C2_amended (cfg : BacktestConfig) (ts : Int)
    (md : List (String × HistoricalDataPoint)) (s : BTState)
    (h : (s.positions.map Prod.fst).Nodup) :
    (∀ pr ∈ (force_close cfg ts md s).positions, alookup md pr.1 = none) ∧
    (∀ pr ∈ s.positions, alookup md pr.1 = none →
      pr ∈ (force_close cfg ts md s).positions) := by
  constructor
  · intro pr hm
    obtain ⟨hmem, himp⟩ :=
      fc_go_mem cfg ts md (s.positions.map Prod.fst) s h pr hm
    exact himp (List.mem_map_of_mem Prod.fst hmem)
  · intro pr hm hmd
    exact fc_go_keep cfg ts md (s.positions.map Prod.fst) s pr hm hmd

/-- C2 witness: the amended theorem applied to the two-position state
`w2_state` with market data covering only asset B. -/
theorem claim_C2_witness :
    ((w2_state.positions.map Prod.fst).Nodup) ∧
    ((∀ pr ∈ (force_close defaultConfig 28800000 w2_md w2_state).positions,
        alookup w2_md pr.1 = none) ∧
     (∀ pr ∈ w2_state.positions, alookup w2_md pr.1 = none →
        pr ∈ (force_close defaultConfig 28800000 w2_md w2_state).positions)) :=
  ⟨by decide, claim_C2_amended defaultConfig 28800000 w2_md w2_state (by decide)⟩

/-- C8 counterexample: on `c8_input` the equity curve falls from 9998 to
about -89975, and the reported max_drawdown is about 10, outside [0, 1]. -/
theorem claim_C8_counterexample :
    (run defaultConfig 8 c8_input).max_drawdown > 1 := by
  norm_num [run, run_aux, create_result, build_buckets, add_point, sort_by_ts, insert_by_ts,
    flatten_points, sort_ints, insert_int, ilookup, iinsert, force_close, fc_step,
    calculate_max_drawdown, mdd_go, process_timestamp, update_position, accrue_funding,
    close_position, closed_record, open_position, can_open_position, get_signal,
    calculate_funding_pnl, calculate_equity, sort_opps, insert_opp, alookup, ainsert, aerase,
    pyTrunc, init_state, c8_input, defaultConfig, List.foldl_cons, List.foldl_nil,
    List.foldr_cons, List.foldr_nil, List.filter, abs_of_nonneg, abs_of_nonpos,
    Int.fdiv, max_def]

/-- C8 amended: the computed max drawdown is always nonnegative, and is 0
whenever the equity samples are non-decreasing; it is not bounded by 1
(see the counterexample, where equity turns negative after a positive
peak).  `BacktestResult.max_drawdown` is `calculate_max_drawdown` of the
run's equity curve by definition of `create_result`. -/
theorem claim_C8_amended (curve : List (Int × ℚ)) :
    0 ≤ calculate_max_drawdown curve ∧
    (List.Chain' (fun a b : Int × ℚ => a.2 ≤ b.2) curve →
      calculate_max_drawdown curve = 0) := by
  constructor
  · cases curve with
    | nil => exact le_refl 0
    | cons pr rest =>
        exact mdd_go_ge (pr :: rest) pr.2 0
  · intro hchain
    cases curve with
    | nil => rfl
    | cons pr rest =>
        show mdd_go pr.2 0 (pr :: rest) = 0
        refine mdd_go_chain (pr :: rest) pr.2 ?_ hchain
        intro x hx
        have hx2 : pr = x := by
          simpa [List.head?] using hx
        rw [← hx2]

/-- C8 witness: the amended theorem applied to a concrete non-decreasing
equity curve. -/
theorem claim_C8_witness :
    0 ≤ calculate_max_drawdown [((0 : Int), (9998 : ℚ)), (28800000, 10098)] ∧
    calculate_max_drawdown [((0 : Int), (9998 : ℚ)), (28800000, 10098)] = 0 :=
  ⟨(claim_C8_amended [((0 : Int), (9998 : ℚ)), (28800000, 10098)]).1,
   (claim_C8_amended [((0 : Int), (9998 : ℚ)), (28800000, 10098)]).2
     (by norm_num [List.chain'_cons])⟩

/-- C9: an input map that is empty or all of whose per-asset sequences are
empty yields the benign empty result: zero trades, zero drawdown,
final capital equal to initial capital, and empty trade, position and
equity collections. -/
theorem claim_C9_empty_input (cfg : BacktestConfig) (hours : Int)
    (input : List (String × List HistoricalDataPoint))
    (h : ∀ pr ∈ input, pr.2 = ([] : List HistoricalDataPoint)) :
    (run cfg hours input).num_trades = 0 ∧
    (run cfg hours input).max_drawdown = 0 ∧
    (run cfg hours input).final_capital = cfg.initial_capital ∧
    (run cfg hours input).trades = [] ∧
    (run cfg hours input).positions = [] ∧
    (run cfg hours input).equity_curve = [] := by
  have hf : flatten_points input = [] := by
    unfold flatten_points
    exact foldl_append_nil input h []
  simp [run, run_aux, hf, sort_by_ts, create_result, init_state,
    calculate_max_drawdown, List.filter]

/-- C9 witness: the theorem applied to the concrete input `c9_input`. -/
theorem claim_C9_witness :
    (∀ pr ∈ c9_input, pr.2 = ([] : List HistoricalDataPoint)) ∧
    ((run defaultConfig 8 c9_input).num_trades = 0 ∧
     (run defaultConfig 8 c9_input).max_drawdown = 0 ∧
     (run defaultConfig 8 c9_input).final_capital = defaultConfig.initial_capital ∧
     (run defaultConfig 8 c9_input).trades = [] ∧
     (run defaultConfig 8 c9_input).positions = [] ∧
     (run defaultConfig 8 c9_input).equity_curve = []) :=
  ⟨by decide, claim_C9_empty_input defaultConfig 8 c9_input (by decide)⟩

/-- C1: on `c1_input` one position is opened and closed with positive pnl
(48, visible in final_capital = 10096 = 10000 - 2 + 50 + 48), yet the
result reports an empty positions list, zero winning and losing trades
and zero win rate, because `_create_result` derives its closed-position
statistics from the dict of open positions, from which every closed
position was deleted. -/
theorem claim_C1_code_eval :
    (run defaultConfig 8 c1_input).positions = [] ∧
    (run defaultConfig 8 c1_input).num_winning_trades = 0 ∧
    (run defaultConfig 8 c1_input).num_losing_trades = 0 ∧
    (run defaultConfig 8 c1_input).win_rate = 0 ∧
    ((run defaultConfig 8 c1_input).trades.filter (fun t => t.action = "close")).length = 1 ∧
    (run defaultConfig 8 c1_input).final_capital = 10096 := by
  norm_num [run, run_aux, create_result, build_buckets, add_point, sort_by_ts, insert_by_ts,
    flatten_points, sort_ints, insert_int, ilookup, iinsert, force_close, fc_step,
    calculate_max_drawdown, mdd_go, process_timestamp, update_position, accrue_funding,
    close_position, closed_record, open_position, can_open_position, get_signal,
    calculate_funding_pnl, calculate_equity, sort_opps, insert_opp, alookup, ainsert, aerase,
    pyTrunc, init_state, c1_input, defaultConfig, List.foldl_cons, List.foldl_nil,
    List.foldr_cons, List.foldr_nil, List.filter, abs_of_nonneg, abs_of_nonpos,
    Int.fdiv]

/-- C3: the data point with mark price -100 is not rejected anywhere: the
run opens a position from it, recording an 'open' trade at price -100
with the nonsensical size -50 = 5000 / (-100) — the non-positive price
flows straight into the position-size arithmetic. -/
theorem claim_C3_code_eval :
    (run defaultConfig 8 c3_input).num_trades = 1 ∧
    (run defaultConfig 8 c3_input).trades.head? = some c3_trade := by
  norm_num [run, run_aux, create_result, build_buckets, add_point, sort_by_ts, insert_by_ts,
    flatten_points, sort_ints, insert_int, ilookup, iinsert, force_close, fc_step,
    calculate_max_drawdown, mdd_go, process_timestamp, update_position, accrue_funding,
    close_position, closed_record, open_position, can_open_position, get_signal,
    calculate_funding_pnl, calculate_equity, sort_opps, insert_opp, alookup, ainsert, aerase,
    pyTrunc, init_state, c3_input, c3_trade, defaultConfig, List.foldl_cons, List.foldl_nil,
    List.foldr_cons, List.foldr_nil, List.filter, abs_of_nonneg, abs_of_nonpos,
    Int.fdiv]

end DeltaNeutral
